import Mathlib

/-! Argo CD project controller: reconciliation core.

A shallow embedding of `pkg/clients/projects/client.go` and
`pkg/controller/projects/controller.go`.

Conventions of the embedding:

* a Go pointer that may be nil is an `Option`; a Go `error` value that may be
  nil is an `Option GoError`;
* a Go multiple return `(*T, error)` is the pair `Option T × Option GoError`;
* the remote client is a black box with its own state `σ`: every method takes
  the state and gives back the next one;
* every controller operation returns, next to its Go results, the managed
  resource as it stands afterwards, the client state afterwards and the list of
  client calls it issued, in order;
* a run-time panic (nil dereference) is the `Exec.panicked` outcome.
-/

namespace ArgocdProjects

/-! ## Errors (`error`, `github.com/pkg/errors`) -/

/-- A Go error value: a leaf error carrying its text, or an error wrapped under
a message by `errors.Wrap`. -/
inductive GoError where
  | leaf (text : String)
  | wrapped (cause : GoError) (message : String)
  deriving DecidableEq, Repr

/-- The `Error()` method: a wrapped error prints `message: cause`. -/
def GoError.Error : GoError → String
  | .leaf text => text
  | .wrapped cause message => message ++ ": " ++ cause.Error

/-- The constructor `errors.New`. -/
def errors.New (message : String) : GoError := .leaf message

/-- The function `errors.Wrap`: nil stays nil, any other error is wrapped under
the message. -/
def errors.Wrap (err : Option GoError) (message : String) : Option GoError :=
  match err with
  | none => none
  | some e => some (.wrapped e message)

/-! ## `strings.Contains` -/

/-- Whether `sub` occurs in `s` as a contiguous run of characters. -/
def containsChars : List Char → List Char → Bool
  | [], sub => sub.isEmpty
  | c :: rest, sub => sub.isPrefixOf (c :: rest) || containsChars rest sub

/-- The function `strings.Contains`. -/
def strings.Contains (s substr : String) : Bool :=
  containsChars s.toList substr.toList

/-! ## `pkg/clients/projects/client.go` -/

def errorProjectNotFound : String := "code = NotFound desc = project"

/-- The remote project (`argocdv1alpha1.AppProject`); only its name is read by
the code under study, and the code only ever builds the zero value. -/
structure AppProject where
  Name : String
  deriving DecidableEq, Repr

/-- The zero value `argocdv1alpha1.AppProject{}`. -/
def AppProject.zero : AppProject := { Name := "" }

structure ProjectQuery where
  Name : String
  deriving DecidableEq, Repr

structure ProjectCreateRequest where
  Project : Option AppProject
  Upsert : Bool
  deriving DecidableEq, Repr

structure ProjectUpdateRequest where
  Project : Option AppProject
  deriving DecidableEq, Repr

/-- The type `project.EmptyResponse`. -/
structure EmptyResponse where
  deriving DecidableEq, Repr

/-- The interface `ProjectServiceClient`, over a client state `σ`. -/
structure ProjectServiceClient (σ : Type) where
  Get : σ → ProjectQuery → (Option AppProject × Option GoError) × σ
  Create : σ → ProjectCreateRequest → (Option AppProject × Option GoError) × σ
  Update : σ → ProjectUpdateRequest → (Option AppProject × Option GoError) × σ
  Delete : σ → ProjectQuery → (Option EmptyResponse × Option GoError) × σ
  List : σ → ProjectQuery → (Option (List AppProject) × Option GoError) × σ

/-- The helper `IsErrorProjectNotFound`. -/
def IsErrorProjectNotFound (err : Option GoError) : Bool :=
  match err with
  | none => false
  | some e => strings.Contains e.Error errorProjectNotFound

/-! ## Kubernetes and crossplane-runtime types used by the controller -/

/-- A status condition (`xpv1.Condition`); `CondType` is its field `Type`. -/
structure Condition where
  CondType : String
  Status : String
  LastTransitionTime : Nat
  Reason : String
  Message : String
  deriving DecidableEq, Repr

/-- The method `Condition.Equal`: equality up to the transition time. -/
def Condition.Equal (c other : Condition) : Bool :=
  c.CondType == other.CondType && c.Status == other.Status &&
    c.Reason == other.Reason && c.Message == other.Message

/-- The condition `xpv1.Available()`, stamped with the current time. -/
def Available (now : Nat) : Condition :=
  { CondType := "Ready", Status := "True", LastTransitionTime := now,
    Reason := "Available", Message := "" }

/-- One round of the outer loop of `ConditionedStatus.SetConditions`: a
condition of the same type is kept when equal and replaced otherwise; a
condition of a new type is appended. -/
def setCondition (conds : List Condition) (new : Condition) : List Condition :=
  let replaced := conds.map fun existing =>
    if existing.CondType != new.CondType then existing
    else if existing.Equal new then existing
    else new
  if conds.any (fun existing => existing.CondType == new.CondType) then replaced
  else replaced ++ [new]

/-- The method `ConditionedStatus.SetConditions`. -/
def SetConditions (conds : List Condition) (c : List Condition) : List Condition :=
  c.foldl setCondition conds

/-- The parameters of a project (`v1alpha1.ProjectParameters`). The code reads
and writes the optional `Name`; whatever else the declaration holds is `rest`. -/
structure ProjectParameters (ρ : Type) where
  Name : Option String
  rest : ρ
  deriving DecidableEq, Repr

/-- The type `v1alpha1.ProjectSpec`. -/
structure ProjectSpec (ρ : Type) where
  ForProvider : ProjectParameters ρ
  deriving DecidableEq, Repr

/-- The type `v1alpha1.ProjectStatus`; `ω` is `v1alpha1.ProjectObservation`. -/
structure ProjectStatus (ω : Type) where
  Conditions : List Condition
  AtProvider : ω
  deriving DecidableEq, Repr

/-- The managed resource `v1alpha1.Project`: object annotations (a string map,
kept as an association list with distinct keys), spec and status. -/
structure Project (ρ ω : Type) where
  Annotations : List (String × String)
  Spec : ProjectSpec ρ
  Status : ProjectStatus ω
  deriving DecidableEq, Repr

/-- A value of the interface `resource.Managed`: a project, or a resource of
some other kind. -/
inductive Managed (ρ ω : Type) where
  | project (cr : Project ρ ω)
  | other (kind : String)
  deriving DecidableEq, Repr

/-- Map assignment `a[k] = v`. -/
def mapSet (k v : String) : List (String × String) → List (String × String)
  | [] => [(k, v)]
  | (k', v') :: rest => if k' = k then (k, v) :: rest else (k', v') :: mapSet k v rest

/-- Map lookup `a[k]`, the empty string when the key is absent. -/
def mapGet (k : String) : List (String × String) → String
  | [] => ""
  | (k', v') :: rest => if k' = k then v' else mapGet k rest

def AnnotationKeyExternalName : String := "crossplane.io/external-name"

/-- The function `meta.GetExternalName`. -/
def GetExternalName {ρ ω : Type} (cr : Project ρ ω) : String :=
  mapGet AnnotationKeyExternalName cr.Annotations

/-- The function `meta.SetExternalName`. -/
def SetExternalName {ρ ω : Type} (cr : Project ρ ω) (name : String) : Project ρ ω :=
  { cr with Annotations := mapSet AnnotationKeyExternalName name cr.Annotations }

structure ExternalObservation where
  ResourceExists : Bool
  ResourceUpToDate : Bool
  ResourceLateInitialized : Bool
  deriving DecidableEq, Repr

/-- The zero value `managed.ExternalObservation{}`. -/
def ExternalObservation.zero : ExternalObservation :=
  { ResourceExists := false, ResourceUpToDate := false, ResourceLateInitialized := false }

structure ExternalCreation where
  ExternalNameAssigned : Bool
  deriving DecidableEq, Repr

/-- The zero value `managed.ExternalCreation{}`. -/
def ExternalCreation.zero : ExternalCreation := { ExternalNameAssigned := false }

structure ExternalUpdate where
  deriving DecidableEq, Repr

/-! ## `pkg/controller/projects/controller.go` -/

def errNotProject : String := "managed resource is not a Argocd project custom resource"
def errGetFailed : String := "cannot get Argocd project"
def errKubeUpdateFailed : String := "cannot update Argocd project custom resource"
def errCreateFailed : String := "cannot create Argocd project"
def errUpdateFailed : String := "cannot update Argocd project"
def errDeleteFailed : String := "cannot delete Argocd project"

/-- A call issued to the remote client. -/
inductive Call where
  | Get (q : ProjectQuery)
  | Create (r : ProjectCreateRequest)
  | Update (r : ProjectUpdateRequest)
  | Delete (q : ProjectQuery)
  deriving DecidableEq, Repr

/-- What a controller operation leaves behind: its Go results `value` and
`err`, the managed resource and the client state afterwards, and the client
calls issued. -/
structure Outcome (α ρ ω σ : Type) where
  value : α
  err : Option GoError
  mg : Managed ρ ω
  client : σ
  calls : List Call

/-- A run of an operation: it returns, or it panics. -/
inductive Exec (β : Type) where
  | returned (out : β)
  | panicked (reason : String)

/-- Modelled from the spec: `clients.LateInitializeStringPtr` of the package
`pkg/clients`, which is not among the sources. The spec (4.2): an unset
attribute is filled when the remote carries a non-default value for it; an
attribute that is set is never overwritten. -/
def LateInitializeStringPtr (s : Option String) (src : String) : Option String :=
  match s with
  | some v => some v
  | none => if src = "" then none else some src

def lateInitializeProject {ρ : Type} (p : ProjectParameters ρ) (r : Option AppProject) :
    ProjectParameters ρ :=
  match r with
  | none => p
  | some r => { p with Name := LateInitializeStringPtr p.Name r.Name }

/-- The function `generateProjectObservation`: the zero observation in both
branches. -/
def generateProjectObservation {ω : Type} [Inhabited ω] (p : Option AppProject) : ω :=
  match p with
  | none => default
  | some _ => default

def generateCreateProjectOptions {ρ : Type} (_p : ProjectParameters ρ) : ProjectCreateRequest :=
  let proj := AppProject.zero
  { Project := some proj, Upsert := false }

def generateUpdateProjectOptions {ρ : Type} (_p : ProjectParameters ρ) : ProjectUpdateRequest :=
  let proj := AppProject.zero
  { Project := some proj }

def isProjectUpToDate {ρ : Type} (_p : ProjectParameters ρ) (_app : Option AppProject) : Bool :=
  true

/-- The struct `external`: the remote client the operations talk to. -/
structure external (σ : Type) where
  client : ProjectServiceClient σ

/-- The method `external.Observe`. `s` is the client state at entry and `now`
the clock reading used for the condition's transition time. `cmp.Equal` on the
two parameter values is structural equality. -/
def external.Observe {ρ ω σ : Type} [DecidableEq ρ] [Inhabited ω]
    (e : external σ) (s : σ) (now : Nat) (mg : Managed ρ ω) :
    Outcome ExternalObservation ρ ω σ :=
  match mg with
  | .other kind =>
    { value := ExternalObservation.zero, err := some (errors.New errNotProject),
      mg := .other kind, client := s, calls := [] }
  | .project cr =>
    if GetExternalName cr = "" then
      { value := { ExternalObservation.zero with ResourceExists := false }, err := none,
        mg := .project cr, client := s, calls := [] }
    else
      let projectQuery : ProjectQuery := { Name := GetExternalName cr }
      match e.client.Get s projectQuery with
      | ((_, some err), s') =>
        { value := ExternalObservation.zero, err := errors.Wrap (some err) errGetFailed,
          mg := .project cr, client := s', calls := [.Get projectQuery] }
      | ((appProject, none), s') =>
        -- the deep copy taken before late initialization
        let current := cr.Spec.ForProvider
        let cr1 : Project ρ ω :=
          { cr with Spec := { cr.Spec with
              ForProvider := lateInitializeProject cr.Spec.ForProvider appProject } }
        let cr2 : Project ρ ω :=
          { cr1 with Status := { cr1.Status with
              AtProvider := generateProjectObservation appProject } }
        let cr3 : Project ρ ω :=
          { cr2 with Status := { cr2.Status with
              Conditions := SetConditions cr2.Status.Conditions [Available now] } }
        { value :=
            { ResourceExists := true
              ResourceUpToDate := isProjectUpToDate cr3.Spec.ForProvider appProject
              ResourceLateInitialized := !(decide (current = cr3.Spec.ForProvider)) },
          err := none, mg := .project cr3, client := s', calls := [.Get projectQuery] }

/-- The method `external.Create`. Dereferencing an unset `Name` panics. -/
def external.Create {ρ ω σ : Type}
    (e : external σ) (s : σ) (mg : Managed ρ ω) :
    Exec (Outcome ExternalCreation ρ ω σ) :=
  match mg with
  | .other kind =>
    .returned { value := ExternalCreation.zero, err := some (errors.New errNotProject),
                mg := .other kind, client := s, calls := [] }
  | .project cr =>
    let appCreateRequest := generateCreateProjectOptions cr.Spec.ForProvider
    match e.client.Create s appCreateRequest with
    | ((_, some err), s') =>
      .returned { value := ExternalCreation.zero, err := errors.Wrap (some err) errCreateFailed,
                  mg := .project cr, client := s', calls := [.Create appCreateRequest] }
    | ((_, none), s') =>
      match cr.Spec.ForProvider.Name with
      | none => .panicked "invalid memory address or nil pointer dereference"
      | some name =>
        .returned { value := { ExternalNameAssigned := true },
                    err := errors.Wrap none errKubeUpdateFailed,
                    mg := .project (SetExternalName cr name), client := s',
                    calls := [.Create appCreateRequest] }

/-- The method `external.Update`. -/
def external.Update {ρ ω σ : Type}
    (e : external σ) (s : σ) (mg : Managed ρ ω) :
    Outcome ExternalUpdate ρ ω σ :=
  match mg with
  | .other kind =>
    { value := {}, err := some (errors.New errNotProject),
      mg := .other kind, client := s, calls := [] }
  | .project cr =>
    let appProjectUpdateRequest := generateUpdateProjectOptions cr.Spec.ForProvider
    match e.client.Update s appProjectUpdateRequest with
    | ((_, some err), s') =>
      { value := {}, err := errors.Wrap (some err) errUpdateFailed,
        mg := .project cr, client := s', calls := [.Update appProjectUpdateRequest] }
    | ((_, none), s') =>
      { value := {}, err := none,
        mg := .project cr, client := s', calls := [.Update appProjectUpdateRequest] }

/-- The method `external.Delete`; its only Go result is the error. -/
def external.Delete {ρ ω σ : Type}
    (e : external σ) (s : σ) (mg : Managed ρ ω) :
    Outcome Unit ρ ω σ :=
  match mg with
  | .other kind =>
    { value := (), err := some (errors.New errNotProject),
      mg := .other kind, client := s, calls := [] }
  | .project cr =>
    let repoQuery : ProjectQuery := { Name := GetExternalName cr }
    match e.client.Delete s repoQuery with
    | ((_, err), s') =>
      { value := (), err := errors.Wrap err errDeleteFailed,
        mg := .project cr, client := s', calls := [.Delete repoQuery] }

/-! ## Example inputs -/

/-- A client that answers every call with a fixed result and counts the calls
it has served in its state. -/
def fixedClient (get create update : Option AppProject × Option GoError)
    (delete : Option EmptyResponse × Option GoError) : ProjectServiceClient Nat :=
  { Get := fun s _ => (get, s + 1)
    Create := fun s _ => (create, s + 1)
    Update := fun s _ => (update, s + 1)
    Delete := fun s _ => (delete, s + 1)
    List := fun s _ => ((some [], none), s + 1) }

/-- A project resource with the given external-name annotation (none when
`ext` is `none`), the given spec name, and an empty status. -/
def exampleProject (ext : Option String) (name : Option String) : Project Unit Unit :=
  { Annotations := match ext with
      | none => []
      | some x => [(AnnotationKeyExternalName, x)]
    Spec := { ForProvider := { Name := name, rest := () } }
    Status := { Conditions := [], AtProvider := () } }

/-- A gRPC not-found error as the project service reports it. -/
def notFoundError : GoError :=
  .leaf "rpc error: code = NotFound desc = project team-a not found"

/-- A gRPC error of another class. -/
def unavailableError : GoError :=
  .leaf "rpc error: code = Unavailable desc = connection refused"

/-- A client all of whose calls succeed, `Get` returning the project `r`. -/
def succeedingClient (r : AppProject) : external Nat :=
  { client := fixedClient (some r, none) (some r, none) (some r, none) (some {}, none) }

/-- A client all of whose calls fail with `err`. -/
def failingClient (err : GoError) : external Nat :=
  { client := fixedClient (none, some err) (none, some err) (none, some err) (none, some err) }

/-! ## Auxiliary facts -/

theorem mapGet_mapSet (k v : String) (m : List (String × String)) :
    mapGet k (mapSet k v m) = v := by
  induction m with
  | nil => simp [mapSet, mapGet]
  | cons kv rest ih =>
    obtain ⟨k', v'⟩ := kv
    by_cases hk : k' = k
    · simp [mapSet, mapGet, hk]
    · simp [mapSet, mapGet, hk, ih]

theorem getExternalName_setExternalName {ρ ω : Type} (cr : Project ρ ω) (name : String) :
    GetExternalName (SetExternalName cr name) = name := by
  simp [GetExternalName, SetExternalName, mapGet_mapSet]

theorem wrap_nil (message : String) : errors.Wrap none message = none := rfl

theorem wrap_error_text (e : GoError) (message : String) :
    (GoError.wrapped e message).Error = message ++ ": " ++ e.Error := rfl

/-! ## Observe on an unbound record -/

/-- C1: Observe on a project whose external name is empty reports
`ResourceExists = false` with a nil error, issues no client call (the call list
is empty and the client state is the one at entry), and hands the resource back
unchanged, whatever the client. -/
theorem observe_unbound_no_call {ρ ω σ : Type} [DecidableEq ρ] [Inhabited ω]
    (e : external σ) (s : σ) (now : Nat) (cr : Project ρ ω)
    (hext : GetExternalName cr = "") :
    (e.Observe s now (.project cr)).value.ResourceExists = false ∧
    (e.Observe s now (.project cr)).err = none ∧
    (e.Observe s now (.project cr)).calls = [] ∧
    (e.Observe s now (.project cr)).client = s ∧
    (e.Observe s now (.project cr)).mg = .project cr := by
  simp [external.Observe, hext, ExternalObservation.zero]

theorem observe_unbound_no_call_witness :
    GetExternalName (exampleProject none (some "team-a")) = "" ∧
    ((failingClient unavailableError).Observe 0 7
        (.project (exampleProject none (some "team-a")))).value.ResourceExists = false ∧
    ((failingClient unavailableError).Observe 0 7
        (.project (exampleProject none (some "team-a")))).err = none ∧
    ((failingClient unavailableError).Observe 0 7
        (.project (exampleProject none (some "team-a")))).calls = [] ∧
    ((failingClient unavailableError).Observe 0 7
        (.project (exampleProject none (some "team-a")))).client = 0 ∧
    ((failingClient unavailableError).Observe 0 7
        (.project (exampleProject none (some "team-a")))).mg =
      .project (exampleProject none (some "team-a")) :=
  ⟨by decide, observe_unbound_no_call (failingClient unavailableError) 0 7
    (exampleProject none (some "team-a")) (by decide)⟩

/-! ## Create -/

/-- C2: when the spec name is set to `n` and the client's Create call succeeds,
Create returns `ExternalNameAssigned = true` with a nil error after exactly that
one call; the resource afterwards has external name `n` and the same spec and
status. -/
theorem create_assigns_external_name {ρ ω σ : Type}
    (e : external σ) (s : σ) (cr : Project ρ ω) (n : String)
    (hname : cr.Spec.ForProvider.Name = some n)
    (hok : (e.client.Create s (generateCreateProjectOptions cr.Spec.ForProvider)).1.2 = none) :
    e.Create s (.project cr) = .returned
      { value := { ExternalNameAssigned := true }
        err := none
        mg := .project (SetExternalName cr n)
        client := (e.client.Create s (generateCreateProjectOptions cr.Spec.ForProvider)).2
        calls := [.Create (generateCreateProjectOptions cr.Spec.ForProvider)] } ∧
    GetExternalName (SetExternalName cr n) = n ∧
    (SetExternalName cr n).Spec = cr.Spec ∧
    (SetExternalName cr n).Status = cr.Status := by
  refine ⟨?_, getExternalName_setExternalName cr n, rfl, rfl⟩
  unfold external.Create
  simp only []
  generalize hres : e.client.Create s (generateCreateProjectOptions cr.Spec.ForProvider) = res
    at hok ⊢
  obtain ⟨⟨proj, err⟩, s'⟩ := res
  simp only at hok
  subst hok
  simp [hname, wrap_nil]

theorem create_assigns_external_name_witness :
    ((exampleProject none (some "team-a")).Spec.ForProvider.Name = some "team-a" ∧
      ((succeedingClient AppProject.zero).client.Create 0
        (generateCreateProjectOptions
          (exampleProject none (some "team-a")).Spec.ForProvider)).1.2 = none) ∧
    (succeedingClient AppProject.zero).Create 0 (.project (exampleProject none (some "team-a")))
      = .returned
      { value := { ExternalNameAssigned := true }
        err := none
        mg := .project (SetExternalName (exampleProject none (some "team-a")) "team-a")
        client := 1
        calls := [.Create { Project := some { Name := "" }, Upsert := false }] } ∧
    GetExternalName (SetExternalName (exampleProject none (some "team-a")) "team-a")
      = "team-a" ∧
    (SetExternalName (exampleProject none (some "team-a")) "team-a").Spec
      = (exampleProject none (some "team-a")).Spec ∧
    (SetExternalName (exampleProject none (some "team-a")) "team-a").Status
      = (exampleProject none (some "team-a")).Status :=
  ⟨⟨rfl, rfl⟩, create_assigns_external_name (succeedingClient AppProject.zero) 0
    (exampleProject none (some "team-a")) "team-a" rfl rfl⟩

/-! ## Failed client calls -/

/-- C10: a failed client call is propagated and changes nothing. For every
project and client: when the Get call that Observe issues (the external name is
non-empty) fails with an error that is not classified as not found, Observe
returns that error wrapped under "cannot get Argocd project"; when the Create
call fails, Create returns it wrapped under "cannot create Argocd project";
when the Update call fails, Update returns it wrapped under "cannot update
Argocd project". In each case the failed call is the only client call and the
resource is handed back unchanged. -/
theorem failed_call_is_wrapped_and_record_kept {ρ ω σ : Type} [DecidableEq ρ] [Inhabited ω]
    (e : external σ) (s : σ) (now : Nat) (cr : Project ρ ω) :
    (∀ err : GoError, GetExternalName cr ≠ "" →
      (e.client.Get s { Name := GetExternalName cr }).1.2 = some err →
      IsErrorProjectNotFound (some err) = false →
      (e.Observe s now (.project cr)).err = some (.wrapped err errGetFailed) ∧
      (GoError.wrapped err errGetFailed).Error = "cannot get Argocd project: " ++ err.Error ∧
      (e.Observe s now (.project cr)).calls = [.Get { Name := GetExternalName cr }] ∧
      (e.Observe s now (.project cr)).mg = .project cr) ∧
    (∀ err : GoError,
      (e.client.Create s (generateCreateProjectOptions cr.Spec.ForProvider)).1.2 = some err →
      ∃ out, e.Create s (.project cr) = .returned out ∧
        out.err = some (.wrapped err errCreateFailed) ∧
        (GoError.wrapped err errCreateFailed).Error
          = "cannot create Argocd project: " ++ err.Error ∧
        out.calls = [.Create (generateCreateProjectOptions cr.Spec.ForProvider)] ∧
        out.mg = .project cr) ∧
    (∀ err : GoError,
      (e.client.Update s (generateUpdateProjectOptions cr.Spec.ForProvider)).1.2 = some err →
      (e.Update s (.project cr)).err = some (.wrapped err errUpdateFailed) ∧
      (GoError.wrapped err errUpdateFailed).Error
        = "cannot update Argocd project: " ++ err.Error ∧
      (e.Update s (.project cr)).calls
        = [.Update (generateUpdateProjectOptions cr.Spec.ForProvider)] ∧
      (e.Update s (.project cr)).mg = .project cr) := by
  refine ⟨?_, ?_, ?_⟩
  · intro err hext hget _
    unfold external.Observe
    simp only [hext, if_false]
    generalize e.client.Get s { Name := GetExternalName cr } = res at hget ⊢
    obtain ⟨⟨proj, err'⟩, s'⟩ := res
    simp only at hget
    subst hget
    exact ⟨rfl, rfl, rfl, rfl⟩
  · intro err hcreate
    unfold external.Create
    simp only []
    generalize e.client.Create s (generateCreateProjectOptions cr.Spec.ForProvider) = res
      at hcreate ⊢
    obtain ⟨⟨proj, err'⟩, s'⟩ := res
    simp only at hcreate
    subst hcreate
    exact ⟨_, rfl, rfl, rfl, rfl, rfl⟩
  · intro err hupdate
    unfold external.Update
    simp only []
    generalize e.client.Update s (generateUpdateProjectOptions cr.Spec.ForProvider) = res
      at hupdate ⊢
    obtain ⟨⟨proj, err'⟩, s'⟩ := res
    simp only at hupdate
    subst hupdate
    exact ⟨rfl, rfl, rfl, rfl⟩

theorem failed_call_is_wrapped_and_record_kept_witness :
    (GetExternalName (exampleProject (some "team-a") (some "team-a")) ≠ "" ∧
      IsErrorProjectNotFound (some unavailableError) = false) ∧
    ((failingClient unavailableError).Observe 0 7
        (.project (exampleProject (some "team-a") (some "team-a")))).err
      = some (.wrapped unavailableError errGetFailed) ∧
    ((failingClient unavailableError).Observe 0 7
        (.project (exampleProject (some "team-a") (some "team-a")))).calls
      = [.Get { Name := "team-a" }] ∧
    ((failingClient unavailableError).Observe 0 7
        (.project (exampleProject (some "team-a") (some "team-a")))).mg
      = .project (exampleProject (some "team-a") (some "team-a")) ∧
    ((failingClient unavailableError).Update 0
        (.project (exampleProject (some "team-a") (some "team-a")))).err
      = some (.wrapped unavailableError errUpdateFailed) ∧
    ((failingClient unavailableError).Update 0
        (.project (exampleProject (some "team-a") (some "team-a")))).mg
      = .project (exampleProject (some "team-a") (some "team-a")) :=
  have h := failed_call_is_wrapped_and_record_kept (failingClient unavailableError) 0 7
    (exampleProject (some "team-a") (some "team-a"))
  have hget := h.1 unavailableError (by decide) rfl (by decide)
  have hupd := h.2.2 unavailableError rfl
  ⟨⟨by decide, by decide⟩, hget.1, hget.2.2.1, hget.2.2.2, hupd.1, hupd.2.2.2⟩

/-! ## Late initialization -/

/-- C6: late initialization never changes an attribute that is set and is
idempotent. For every remote `r`, nil included: parameters whose name is set
come back as they were, even when the remote name differs; the other attributes
are never touched; and applying it a second time with the same `r` gives what
one application gives. -/
theorem lateInitializeProject_keeps_set_and_idempotent {ρ : Type}
    (p : ProjectParameters ρ) (r : Option AppProject) :
    (∀ n : String, p.Name = some n → lateInitializeProject p r = p) ∧
    (lateInitializeProject p r).rest = p.rest ∧
    lateInitializeProject (lateInitializeProject p r) r = lateInitializeProject p r := by
  obtain ⟨name, rest⟩ := p
  cases r with
  | none => exact ⟨fun _ _ => rfl, rfl, rfl⟩
  | some r =>
    cases name with
    | some v => exact ⟨fun _ _ => rfl, rfl, rfl⟩
    | none =>
      refine ⟨fun n hn => by simp at hn, rfl, ?_⟩
      by_cases hr : r.Name = ""
      · simp [lateInitializeProject, LateInitializeStringPtr, hr]
      · simp [lateInitializeProject, LateInitializeStringPtr, hr]

theorem lateInitializeProject_keeps_set_and_idempotent_witness :
    lateInitializeProject ({ Name := some "team-a", rest := () } : ProjectParameters Unit)
        (some { Name := "team-c" })
      = { Name := some "team-a", rest := () } ∧
    lateInitializeProject
        (lateInitializeProject ({ Name := none, rest := () } : ProjectParameters Unit)
          (some { Name := "team-b" }))
        (some { Name := "team-b" })
      = lateInitializeProject ({ Name := none, rest := () } : ProjectParameters Unit)
          (some { Name := "team-b" }) :=
  ⟨(lateInitializeProject_keeps_set_and_idempotent
      ({ Name := some "team-a", rest := () } : ProjectParameters Unit)
      (some { Name := "team-c" })).1 "team-a" rfl,
   (lateInitializeProject_keeps_set_and_idempotent
      ({ Name := none, rest := () } : ProjectParameters Unit)
      (some { Name := "team-b" })).2.2⟩

/-! ## Observe on a bound record whose Get succeeds -/

/-- C7: for a project with a non-empty external name whose Get call succeeds
with remote project `r`, Observe returns a nil error and `ResourceExists =
true`, the spec afterwards is the late-initialized one, and
`ResourceLateInitialized` is true exactly when that spec differs from the one
at entry. With the spec name unset and a remote name `b` that is not empty
(such as "team-b") the spec name becomes `b`, with `ResourceLateInitialized =
true` and `ResourceUpToDate = true`; with the spec name set,
`ResourceLateInitialized = false`. -/
theorem observe_reports_late_initialization {ρ ω σ : Type} [DecidableEq ρ] [Inhabited ω]
    (e : external σ) (s : σ) (now : Nat) (cr : Project ρ ω) (r : AppProject)
    (hext : GetExternalName cr ≠ "")
    (hget : (e.client.Get s { Name := GetExternalName cr }).1 = (some r, none)) :
    ∃ cr' : Project ρ ω,
      (e.Observe s now (.project cr)).mg = .project cr' ∧
      (e.Observe s now (.project cr)).err = none ∧
      (e.Observe s now (.project cr)).value.ResourceExists = true ∧
      cr'.Spec.ForProvider = lateInitializeProject cr.Spec.ForProvider (some r) ∧
      ((e.Observe s now (.project cr)).value.ResourceLateInitialized = true ↔
        cr'.Spec.ForProvider ≠ cr.Spec.ForProvider) ∧
      (cr.Spec.ForProvider.Name = none → r.Name ≠ "" →
        cr'.Spec.ForProvider.Name = some r.Name ∧
        (e.Observe s now (.project cr)).value.ResourceLateInitialized = true ∧
        (e.Observe s now (.project cr)).value.ResourceUpToDate = true) ∧
      (∀ n : String, cr.Spec.ForProvider.Name = some n →
        cr'.Spec.ForProvider.Name = some n ∧
        (e.Observe s now (.project cr)).value.ResourceLateInitialized = false) := by
  unfold external.Observe
  simp only [hext, if_false]
  generalize e.client.Get s { Name := GetExternalName cr } = res at hget ⊢
  obtain ⟨⟨proj, err⟩, s'⟩ := res
  simp only [Prod.mk.injEq] at hget
  obtain ⟨hproj, herr⟩ := hget
  subst hproj
  subst herr
  refine ⟨_, rfl, rfl, rfl, rfl, ?_, ?_, ?_⟩
  · rw [ne_comm]
    simp
  · intro hnone hr
    simp [lateInitializeProject, LateInitializeStringPtr, hnone, hr, isProjectUpToDate]
    intro hEq
    have := congrArg ProjectParameters.Name hEq
    simp [hnone] at this
  · intro n hn
    obtain ⟨ann, ⟨⟨name, rest⟩⟩, st⟩ := cr
    simp only at hn
    subst hn
    simp [lateInitializeProject, LateInitializeStringPtr]

theorem observe_reports_late_initialization_witness :
    (GetExternalName (exampleProject (some "team-b") none) ≠ "" ∧
      GetExternalName (exampleProject (some "team-b") (some "team-a")) ≠ "") ∧
    (∃ cr' : Project Unit Unit,
      ((succeedingClient { Name := "team-b" }).Observe 0 7
        (.project (exampleProject (some "team-b") none))).mg = .project cr' ∧
      cr'.Spec.ForProvider.Name = some "team-b" ∧
      ((succeedingClient { Name := "team-b" }).Observe 0 7
        (.project (exampleProject (some "team-b") none))).value.ResourceLateInitialized
        = true ∧
      ((succeedingClient { Name := "team-b" }).Observe 0 7
        (.project (exampleProject (some "team-b") none))).value.ResourceUpToDate = true) ∧
    ((succeedingClient { Name := "team-b" }).Observe 0 7
        (.project (exampleProject (some "team-b") (some "team-a")))).value.ResourceLateInitialized
      = false ∧
    ((succeedingClient { Name := "team-b" }).Observe 0 7
        (.project (exampleProject (some "team-b") none))).mg
      = .project
          { Annotations := [(AnnotationKeyExternalName, "team-b")]
            Spec := { ForProvider := { Name := some "team-b", rest := () } }
            Status := { Conditions := [Available 7], AtProvider := () } } :=
  have h1 := observe_reports_late_initialization (succeedingClient { Name := "team-b" }) 0 7
    (exampleProject (some "team-b") none) { Name := "team-b" } (by decide) rfl
  have h2 := observe_reports_late_initialization (succeedingClient { Name := "team-b" }) 0 7
    (exampleProject (some "team-b") (some "team-a")) { Name := "team-b" } (by decide) rfl
  ⟨⟨by decide, by decide⟩,
   match h1 with
   | ⟨cr', hmg, _, _, _, _, hunset, _⟩ => ⟨cr', hmg, hunset rfl (by decide)⟩,
   match h2 with
   | ⟨_, _, _, _, _, _, _, hset⟩ => (hset "team-a" rfl).2,
   by decide⟩

/-! ## Where the code departs from its specification

The evaluations below run the code at concrete inputs. -/

/-- Delete returns a nil error exactly when the client's Delete call does: no
class of client error is turned into success. -/
theorem delete_err_eq_none_iff {ρ ω σ : Type}
    (e : external σ) (s : σ) (cr : Project ρ ω) :
    (e.Delete s (.project cr)).err = none ↔
      (e.client.Delete s { Name := GetExternalName cr }).1.2 = none := by
  unfold external.Delete
  simp only []
  cases h : (e.client.Delete s { Name := GetExternalName cr }).1.2 <;> simp [errors.Wrap]

/-- Observe on a bound record returns a nil error exactly when the client's Get
call does: no class of client error is turned into an observation. -/
theorem observe_err_eq_none_iff {ρ ω σ : Type} [DecidableEq ρ] [Inhabited ω]
    (e : external σ) (s : σ) (now : Nat) (cr : Project ρ ω)
    (hext : GetExternalName cr ≠ "") :
    (e.Observe s now (.project cr)).err = none ↔
      (e.client.Get s { Name := GetExternalName cr }).1.2 = none := by
  unfold external.Observe
  simp only [hext, if_false]
  generalize e.client.Get s { Name := GetExternalName cr } = res
  obtain ⟨⟨proj, err⟩, s'⟩ := res
  cases err <;> simp [errors.Wrap]

/-- The up-to-date check answers true on every input. -/
theorem isProjectUpToDate_eq_true {ρ : Type} (p : ProjectParameters ρ)
    (app : Option AppProject) : isProjectUpToDate p app = true := rfl

/-- The create and update payloads do not depend on the parameters. -/
theorem generated_options_constant {ρ : Type} (p : ProjectParameters ρ) :
    generateCreateProjectOptions p = { Project := some { Name := "" }, Upsert := false } ∧
    generateUpdateProjectOptions p = { Project := some { Name := "" } } :=
  ⟨rfl, rfl⟩

/-- C3 (the code departs): on a project with external name "team-a", when the
client's Delete call fails with an error that `IsErrorProjectNotFound`
classifies as not found, the controller's Delete does not return nil: it returns
that error wrapped under "cannot delete Argocd project". -/
theorem delete_not_found_returns_error :
    GetExternalName (exampleProject (some "team-a") (some "team-a")) = "team-a" ∧
    (fixedClient (none, none) (none, none) (none, none) (none, some notFoundError)).Delete 0
        { Name := "team-a" } = ((none, some notFoundError), 1) ∧
    IsErrorProjectNotFound (some notFoundError) = true ∧
    ((failingClient notFoundError).Delete 0
        (.project (exampleProject (some "team-a") (some "team-a")))).err
      = some (.wrapped notFoundError errDeleteFailed) ∧
    ((failingClient notFoundError).Delete 0
        (.project (exampleProject (some "team-a") (some "team-a")))).err ≠ none := by
  refine ⟨by decide, rfl, by decide, by decide, by decide⟩

/-- C4 (the code departs): on a project with external name "team-a", when the
client's Get call fails with an error that `IsErrorProjectNotFound` classifies
as not found, Observe does not return a nil error: it returns that error
wrapped under "cannot get Argocd project", next to the zero observation. -/
theorem observe_not_found_returns_error :
    GetExternalName (exampleProject (some "team-a") (some "team-a")) = "team-a" ∧
    IsErrorProjectNotFound (some notFoundError) = true ∧
    ((failingClient notFoundError).Observe 0 7
        (.project (exampleProject (some "team-a") (some "team-a")))).err
      = some (.wrapped notFoundError errGetFailed) ∧
    ((failingClient notFoundError).Observe 0 7
        (.project (exampleProject (some "team-a") (some "team-a")))).err ≠ none ∧
    ((failingClient notFoundError).Observe 0 7
        (.project (exampleProject (some "team-a") (some "team-a")))).value
      = ExternalObservation.zero := by
  refine ⟨by decide, by decide, by decide, by decide, by decide⟩

/-- C5 (the code departs): for spec name "team-a" and remote name "team-c"
`isProjectUpToDate` answers true, and Observe on such a record, Get succeeding,
reports `ResourceUpToDate = true` while leaving the spec name at "team-a". -/
theorem isProjectUpToDate_true_on_differing_name :
    isProjectUpToDate ({ Name := some "team-a", rest := () } : ProjectParameters Unit)
        (some { Name := "team-c" }) = true ∧
    ((succeedingClient { Name := "team-c" }).Observe 0 7
        (.project (exampleProject (some "team-a") (some "team-a")))).value
      = { ResourceExists := true, ResourceUpToDate := true,
          ResourceLateInitialized := false } ∧
    ((succeedingClient { Name := "team-c" }).Observe 0 7
        (.project (exampleProject (some "team-a") (some "team-a")))).mg
      = .project
          { Annotations := [(AnnotationKeyExternalName, "team-a")]
            Spec := { ForProvider := { Name := some "team-a", rest := () } }
            Status := { Conditions := [Available 7], AtProvider := () } } := by
  refine ⟨rfl, by decide, by decide⟩

/-- C8 (the code departs): for spec name "team-a" the project inside the create
request and inside the update request has the empty name, and these are the
payloads Create and Update hand to the client. -/
theorem generated_options_drop_name :
    (generateCreateProjectOptions
        ({ Name := some "team-a", rest := () } : ProjectParameters Unit)).Project
      = some { Name := "" } ∧
    (generateUpdateProjectOptions
        ({ Name := some "team-a", rest := () } : ProjectParameters Unit)).Project
      = some { Name := "" } ∧
    (∃ out, (succeedingClient AppProject.zero).Create 0
          (.project (exampleProject none (some "team-a"))) = .returned out ∧
        out.calls = [.Create { Project := some { Name := "" }, Upsert := false }]) ∧
    ((succeedingClient AppProject.zero).Update 0
        (.project (exampleProject (some "team-a") (some "team-a")))).calls
      = [.Update { Project := some { Name := "" } }] := by
  refine ⟨rfl, rfl, ⟨_, rfl, rfl⟩, rfl⟩

/-- C9 (the code departs): on a project whose spec name is unset, with a
client whose Create call succeeds, Create panics on the nil dereference; on a
project whose spec name is the empty string it returns with the external name
still empty. -/
theorem create_panics_on_unset_name :
    (fixedClient (none, none) (some AppProject.zero, none) (none, none) (none, none)).Create 0
        (generateCreateProjectOptions (exampleProject none none).Spec.ForProvider)
      = ((some AppProject.zero, none), 1) ∧
    (succeedingClient AppProject.zero).Create 0 (.project (exampleProject none none))
      = .panicked "invalid memory address or nil pointer dereference" ∧
    (∃ out cr', (succeedingClient AppProject.zero).Create 0
          (.project (exampleProject none (some ""))) = .returned out ∧
        out.err = none ∧ out.mg = .project cr' ∧ GetExternalName cr' = "") := by
  refine ⟨rfl, rfl, ⟨_, _, rfl, rfl, rfl, by decide⟩⟩

end ArgocdProjects
